import Mathlib

/-!
Verification development for a read-only SQLite-format query engine
(Rust sources: `main.rs`, `lexer.rs`, `parser.rs`, `sql_engine.rs`).

The development shallowly embeds the program: byte streams are `List Nat`
(each entry a byte value), machine integers are `Nat`/`Int` with explicit
wrapping where the Rust code wraps, and every Rust `panic!`, failed
`unwrap`, failed `assert!` or out-of-bounds index is modelled as `none`
in an `Option`-valued result.  Definitions follow the Rust sources
function by function; comments cite the file and item each definition
embeds.
-/

namespace SqliteClone

set_option maxRecDepth 4096

/-! ### Byte-level helpers -/

/-- Big-endian interpretation of a byte list (`uN::from_be_bytes`). -/
def beNat (bs : List Nat) : Nat :=
  bs.foldl (fun a b => a * 256 + b) 0

/-- Two's-complement reading of a `w`-bit unsigned value `u`
(`iN::from_be_bytes` composed with `beNat`). -/
def twosComp (w u : Nat) : Int :=
  if u < 2 ^ (w - 1) then (u : Int) else (u : Int) - 2 ^ w

/-- Truncating cast of an `i64` value to `u32` (Rust `as u32`). -/
def i64AsU32 (n : Int) : Nat := (n.emod (2 ^ 32)).toNat

/-- Wrapping cast of an `i64` value to its `u64` bit pattern. -/
def i64AsU64 (n : Int) : Nat := (n.emod (2 ^ 64)).toNat

/-- The 8 big-endian bytes of an `i64` (`i64::to_be_bytes`,
used by `Value::as_bytes` in `main.rs`). -/
def i64BeBytes (n : Int) : List Nat :=
  let u := i64AsU64 n
  [u / 2 ^ 56 % 256, u / 2 ^ 48 % 256, u / 2 ^ 40 % 256, u / 2 ^ 32 % 256,
   u / 2 ^ 24 % 256, u / 2 ^ 16 % 256, u / 2 ^ 8 % 256, u % 256]

/-- UTF-8 encoding of one character (Rust `str::as_bytes`, per scalar value). -/
def charUtf8 (c : Char) : List Nat :=
  let n := c.toNat
  if n < 0x80 then [n]
  else if n < 0x800 then
    [0xC0 + n / 64, 0x80 + n % 64]
  else if n < 0x10000 then
    [0xE0 + n / 4096, 0x80 + n / 64 % 64, 0x80 + n % 64]
  else
    [0xF0 + n / 262144, 0x80 + n / 4096 % 64, 0x80 + n / 64 % 64, 0x80 + n % 64]

/-- UTF-8 byte sequence of a string (Rust `String::as_bytes`). -/
def strUtf8 (s : String) : List Nat :=
  (s.data.map charUtf8).flatten

/-- Is `b` a UTF-8 continuation byte? -/
def utf8Cont (b : Nat) : Prop := 0x80 ≤ b ∧ b ≤ 0xBF

instance (b : Nat) : Decidable (utf8Cont b) := by
  unfold utf8Cont; infer_instance

/-- Strict UTF-8 decoding of a byte list into characters; `none` on any
invalid sequence (models Rust `String::from_utf8(..)` failing, whose
`.unwrap()` panics). Overlong forms, surrogates and values above
`0x10FFFF` are rejected, as in Rust. -/
def utf8DecodeChars : List Nat → Option (List Char)
  | [] => some []
  | b :: rest =>
    if b ≤ 0x7F then
      (utf8DecodeChars rest).map (fun cs => Char.ofNat b :: cs)
    else if b < 0xC2 then none
    else if b ≤ 0xDF then
      match rest with
      | b1 :: rest1 =>
        if utf8Cont b1 then
          (utf8DecodeChars rest1).map
            (fun cs => Char.ofNat ((b - 0xC0) * 64 + (b1 - 0x80)) :: cs)
        else none
      | [] => none
    else if b ≤ 0xEF then
      match rest with
      | b1 :: b2 :: rest2 =>
        if ((if b = 0xE0 then 0xA0 else 0x80) ≤ b1 ∧
            b1 ≤ (if b = 0xED then 0x9F else 0xBF)) ∧ utf8Cont b2 then
          (utf8DecodeChars rest2).map
            (fun cs =>
              Char.ofNat ((b - 0xE0) * 4096 + (b1 - 0x80) * 64 + (b2 - 0x80)) :: cs)
        else none
      | _ => none
    else if b ≤ 0xF4 then
      match rest with
      | b1 :: b2 :: b3 :: rest3 =>
        if ((if b = 0xF0 then 0x90 else 0x80) ≤ b1 ∧
            b1 ≤ (if b = 0xF4 then 0x8F else 0xBF)) ∧ utf8Cont b2 ∧ utf8Cont b3 then
          (utf8DecodeChars rest3).map
            (fun cs =>
              Char.ofNat ((b - 0xF0) * 262144 + (b1 - 0x80) * 4096 +
                (b2 - 0x80) * 64 + (b3 - 0x80)) :: cs)
        else none
      | _ => none
    else none

/-- Rust `String::from_utf8(bytes)`, with `.unwrap()` panics as `none`. -/
def utf8Decode (bs : List Nat) : Option String :=
  (utf8DecodeChars bs).map (fun cs => String.mk cs)

/-- ASCII lower-casing of one character (`char::to_ascii_lowercase`). -/
def asciiLowerChar (c : Char) : Char :=
  if 'A' ≤ c ∧ c ≤ 'Z' then Char.ofNat (c.toNat + 32) else c

/-- ASCII lower-casing of a string (`str::to_ascii_lowercase`). -/
def asciiLower (s : String) : String := String.mk (s.data.map asciiLowerChar)

/-- ASCII upper-casing of one character (`char::to_ascii_uppercase`). -/
def asciiUpperChar (c : Char) : Char :=
  if 'a' ≤ c ∧ c ≤ 'z' then Char.ofNat (c.toNat - 32) else c

/-- ASCII upper-casing of a string (`str::to_ascii_uppercase`). -/
def asciiUpper (s : String) : String := String.mk (s.data.map asciiUpperChar)

/-- Lexicographic strict order on byte vectors: Rust's derived `Ord`
on `Vec<u8>` (`a < b`). -/
def bytesLt : List Nat → List Nat → Bool
  | [], [] => false
  | [], _ :: _ => true
  | _ :: _, [] => false
  | a :: xs, b :: ys => if a < b then true else if b < a then false else bytesLt xs ys

/-! ### The varint decoder (`main.rs`, `ByteReader::read_varint`) -/

/-- Loop body of `read_varint` (`main.rs` lines 422-445).  State: remaining
input, accumulator `n` (a `u64`, kept below `2^64` by explicit wrapping),
current `shift`, bytes consumed `size`.  Note that the source accumulates
`shift += 7` and shifts the *whole* accumulator by the accumulated shift on
every iteration.  A shift of 64 or more overflows `u64::shl` (a panic in
debug builds), modelled as `none`; it is unreachable for inputs of at most
nine bytes.  An exhausted input models the `read_exact` failure. -/
def readVarintAux : List Nat → Nat → Nat → Nat → Option (Nat × Nat × List Nat)
  | [], _, _, _ => none
  | b :: rest, n, shift, size =>
    if 64 ≤ shift then none
    else if b % 256 < 128 then
      some ((n <<< shift) % 2 ^ 64 ||| b % 256, size + 1, rest)
    else
      readVarintAux rest ((n <<< shift) % 2 ^ 64 ||| b % 256 % 128) (shift + 7) (size + 1)

/-- `ByteReader::read_varint` (`main.rs` lines 422-445): returns the decoded
value, the byte count consumed, and the remaining input. -/
def readVarint (bs : List Nat) : Option (Nat × Nat × List Nat) :=
  readVarintAux bs 0 0 0

/-- Modelled from the spec: the standard SQLite varint encoding (§4.1 of the
specification; the repository contains no encoder).  Values below `2^56` use
1 to 8 bytes, each contributing 7 bits big-endian with the high bit as a
continuation flag; values of `2^56` and above use the 9-byte form whose last
byte contributes all 8 bits. -/
def encodeVarint (v : Nat) : List Nat :=
  if v < 2 ^ 7 then [v]
  else if v < 2 ^ 14 then [128 + v / 2 ^ 7, v % 128]
  else if v < 2 ^ 21 then [128 + v / 2 ^ 14, 128 + v / 2 ^ 7 % 128, v % 128]
  else if v < 2 ^ 28 then
    [128 + v / 2 ^ 21, 128 + v / 2 ^ 14 % 128, 128 + v / 2 ^ 7 % 128, v % 128]
  else if v < 2 ^ 35 then
    [128 + v / 2 ^ 28, 128 + v / 2 ^ 21 % 128, 128 + v / 2 ^ 14 % 128,
     128 + v / 2 ^ 7 % 128, v % 128]
  else if v < 2 ^ 42 then
    [128 + v / 2 ^ 35, 128 + v / 2 ^ 28 % 128, 128 + v / 2 ^ 21 % 128,
     128 + v / 2 ^ 14 % 128, 128 + v / 2 ^ 7 % 128, v % 128]
  else if v < 2 ^ 49 then
    [128 + v / 2 ^ 42, 128 + v / 2 ^ 35 % 128, 128 + v / 2 ^ 28 % 128,
     128 + v / 2 ^ 21 % 128, 128 + v / 2 ^ 14 % 128, 128 + v / 2 ^ 7 % 128, v % 128]
  else if v < 2 ^ 56 then
    [128 + v / 2 ^ 49, 128 + v / 2 ^ 42 % 128, 128 + v / 2 ^ 35 % 128,
     128 + v / 2 ^ 28 % 128, 128 + v / 2 ^ 21 % 128, 128 + v / 2 ^ 14 % 128,
     128 + v / 2 ^ 7 % 128, v % 128]
  else
    [128 + v / 2 ^ 57 % 128, 128 + v / 2 ^ 50 % 128, 128 + v / 2 ^ 43 % 128,
     128 + v / 2 ^ 36 % 128, 128 + v / 2 ^ 29 % 128, 128 + v / 2 ^ 22 % 128,
     128 + v / 2 ^ 15 % 128, 128 + v / 2 ^ 8 % 128, v % 256]

/-! ### Values (`main.rs`, `enum Value` and its impls) -/

/-- `enum Value` (`main.rs` lines 1003-1009).  The source enum has exactly
these four variants; there is no `Real`/float variant. -/
inductive Value where
  | Int (n : Int)
  | Text (s : String)
  | Blob (b : List Nat)
  | Null
deriving DecidableEq

/-- The derived `PartialEq` of `Value` (`#[derive(PartialEq, Eq)]`,
`main.rs` line 1003): structural equality, variants of different
constructors never compare equal. -/
def valueEqRust : Value → Value → Bool
  | Value.Int a, Value.Int b => a == b
  | Value.Text a, Value.Text b => a == b
  | Value.Blob a, Value.Blob b => a == b
  | Value.Null, Value.Null => true
  | _, _ => false

/-- `Value::as_bytes` (`main.rs` lines 1012-1019). -/
def valueBytes : Value → List Nat
  | Value.Int n => i64BeBytes n
  | Value.Text s => strUtf8 s
  | Value.Blob b => b
  | Value.Null => []

/-- `TryInto<String> for Value` (`main.rs` lines 1044-1054);
the `String::from_utf8(..).unwrap()` panic on a non-UTF-8 blob is `none`. -/
def valueTryIntoString : Value → Option String
  | Value.Text s => some s
  | Value.Blob b => utf8Decode b
  | _ => none

/-- `TryInto<u32> for Value` (`main.rs` lines 1056-1065): `Int(n)` casts
with `n as u32` (truncation), anything else is an error (`unwrap` panics). -/
def valueTryIntoU32 : Value → Option Nat
  | Value.Int n => some (i64AsU32 n)
  | _ => none

/-! ### Serial types (`main.rs`, `enum DataType` and its impls) -/

/-- `enum DataType` (`main.rs` lines 987-1001). -/
inductive DataType where
  | Null
  | Int8
  | Int16
  | Int24
  | Int32
  | Int48
  | Int64
  | Float
  | Zero
  | One
  | Blob (size : Nat)
  | Text (size : Nat)
deriving DecidableEq

/-- `From<u64> for DataType` (`main.rs` lines 1104-1128); the
`panic!("Invalid data type byte")` cases (10 and 11) are `none`. -/
def dataTypeFromCode (byte : Nat) : Option DataType :=
  match byte with
  | 0 => some DataType.Null
  | 1 => some DataType.Int8
  | 2 => some DataType.Int16
  | 3 => some DataType.Int24
  | 4 => some DataType.Int32
  | 5 => some DataType.Int48
  | 6 => some DataType.Int64
  | 7 => some DataType.Float
  | 8 => some DataType.Zero
  | 9 => some DataType.One
  | b =>
    if 12 ≤ b ∧ b % 2 = 0 then some (DataType.Blob ((b - 12) / 2))
    else if 13 ≤ b ∧ b % 2 = 1 then some (DataType.Text ((b - 13) / 2))
    else none

/-- Take exactly `n` bytes from the head of a byte list
(`Read::read_exact`; a short read fails, i.e. its `.unwrap()` panics). -/
def readBytes (n : Nat) (bs : List Nat) : Option (List Nat × List Nat) :=
  if bs.length < n then none else some (bs.take n, bs.drop n)

/-- `DataType::parse` (`main.rs` lines 1067-1101), decoding one column body
from the head of a byte list.  Faithful points: `Int24` builds
`i32::from_be_bytes([0, b0, b1, b2])` and `Int48` builds
`i64::from_be_bytes([0, 0, b0, .., b5])` — both zero-pad, they do not
sign-extend; `Float` is decoded as `Value::Int(read_u64() as i64)` — the
raw bit pattern reinterpreted, not an IEEE float (and `Value` has no float
variant to hold one). -/
def DataType.parse : DataType → List Nat → Option (Value × List Nat)
  | DataType.Null, bs => some (Value.Null, bs)
  | DataType.Int8, bs =>
    (readBytes 1 bs).map (fun (v, rest) => (Value.Int (twosComp 8 (beNat v)), rest))
  | DataType.Int16, bs =>
    (readBytes 2 bs).map (fun (v, rest) => (Value.Int (twosComp 16 (beNat v)), rest))
  | DataType.Int24, bs =>
    (readBytes 3 bs).map
      (fun (v, rest) => (Value.Int (twosComp 32 (beNat (0 :: v))), rest))
  | DataType.Int32, bs =>
    (readBytes 4 bs).map (fun (v, rest) => (Value.Int (twosComp 32 (beNat v)), rest))
  | DataType.Int48, bs =>
    (readBytes 6 bs).map
      (fun (v, rest) => (Value.Int (twosComp 64 (beNat (0 :: 0 :: v))), rest))
  | DataType.Int64, bs =>
    (readBytes 8 bs).map (fun (v, rest) => (Value.Int (twosComp 64 (beNat v)), rest))
  | DataType.Float, bs =>
    (readBytes 8 bs).map (fun (v, rest) => (Value.Int (twosComp 64 (beNat v)), rest))
  | DataType.Zero, bs => some (Value.Int 0, bs)
  | DataType.One, bs => some (Value.Int 1, bs)
  | DataType.Blob size, bs =>
    (readBytes size bs).map (fun (v, rest) => (Value.Blob v, rest))
  | DataType.Text size, bs =>
    (readBytes size bs).bind
      (fun (v, rest) => (utf8Decode v).map (fun s => (Value.Text s, rest)))

/-! ### The database header (`main.rs`, `DbHeader::parse` and the
discriminant conversions) -/

/-- `enum FileFormat` (`main.rs` lines 453-457). -/
inductive FileFormat where
  | Legacy
  | Wal
deriving DecidableEq

/-- `From<u8> for FileFormat` (`main.rs` lines 459-467); the panic on any
other byte is `none`. -/
def fileFormatFromU8 (b : Nat) : Option FileFormat :=
  if b = 1 then some FileFormat.Legacy
  else if b = 2 then some FileFormat.Wal
  else none

/-- `enum SchemaFormat` (`main.rs` lines 469-475). -/
inductive SchemaFormat where
  | One
  | Two
  | Three
  | Four
deriving DecidableEq

/-- `From<u32> for SchemaFormat` (`main.rs` lines 477-487). -/
def schemaFormatFromU32 (n : Nat) : Option SchemaFormat :=
  if n = 1 then some SchemaFormat.One
  else if n = 2 then some SchemaFormat.Two
  else if n = 3 then some SchemaFormat.Three
  else if n = 4 then some SchemaFormat.Four
  else none

/-- `enum TextEncoding` (`main.rs` lines 489-494). -/
inductive TextEncoding where
  | Utf8
  | Utf16le
  | Utf16be
deriving DecidableEq

/-- `From<u32> for TextEncoding` (`main.rs` lines 496-505). -/
def textEncodingFromU32 (n : Nat) : Option TextEncoding :=
  if n = 1 then some TextEncoding.Utf8
  else if n = 2 then some TextEncoding.Utf16le
  else if n = 3 then some TextEncoding.Utf16be
  else none

/-- `ByteReader::read_u8` (`main.rs` lines 374-378). -/
def readU8 (bs : List Nat) : Option (Nat × List Nat) :=
  (readBytes 1 bs).map (fun (v, rest) => (beNat v, rest))

/-- `ByteReader::read_u16` (`main.rs` lines 380-384). -/
def readU16 (bs : List Nat) : Option (Nat × List Nat) :=
  (readBytes 2 bs).map (fun (v, rest) => (beNat v, rest))

/-- `ByteReader::read_u32` (`main.rs` lines 386-390). -/
def readU32 (bs : List Nat) : Option (Nat × List Nat) :=
  (readBytes 4 bs).map (fun (v, rest) => (beNat v, rest))

/-- A Rust `assert!(c)`: `some ()` when the condition holds, otherwise the
panic, modelled as `none`. -/
def assertCond (c : Prop) [Decidable c] : Option Unit :=
  if c then some () else none

/-- The 16 magic bytes `"SQLite format 3\0"` (`main.rs` lines 541-547). -/
def sqliteMagicBytes : List Nat :=
  [0x53, 0x51, 0x4c, 0x69, 0x74, 0x65, 0x20, 0x66, 0x6f, 0x72, 0x6d, 0x61, 0x74,
   0x20, 0x33, 0x00]

/-- The page-size decode rule at `main.rs` lines 555-559: the stored
16-bit value `1` denotes 65536, every other value stands for itself. -/
def decodePageSize (raw : Nat) : Nat :=
  if raw = 1 then 65536 else raw

/-- `struct DbHeader` (`main.rs` lines 507-531). -/
structure DbHeader where
  page_size : Nat
  file_format_write_version : FileFormat
  file_format_read_version : FileFormat
  reserved_space : Nat
  max_embedded_payload_fraction : Nat
  min_embedded_payload_fraction : Nat
  leaf_payload_fraction : Nat
  file_change_counter : Nat
  database_size_in_pages : Nat
  first_freelist_trunk_page : Nat
  number_of_freelist_pages : Nat
  schema_cookie : Nat
  schema_format : SchemaFormat
  default_page_cache_size : Nat
  largest_root_btree_page_number : Nat
  text_encoding : TextEncoding
  user_version : Nat
  incremental_vacuum_mode : Bool
  application_id : Nat
  version_valid_for : Nat
  sqlite_version_number : Nat
deriving DecidableEq

/-- `DbHeader::parse` (`main.rs` lines 533-675) over the file's byte list.
Reads are sequential from offset 0; every failed `read_exact`, failed
`assert!` and invalid discriminant (`.into()` panicking in the struct
literal at the end, as in the source) yields `none`.  Returns the header
and the unconsumed remainder of the input. -/
def dbHeaderParse (bs : List Nat) : Option (DbHeader × List Nat) :=
  match readBytes 16 bs with
  | none => none
  | some (magic, r) =>
  match assertCond (magic = sqliteMagicBytes) with
  | none => none
  | some _ =>
  match readU16 r with
  | none => none
  | some (page_size_raw, r) =>
  match readU8 r with
  | none => none
  | some (ffw, r) =>
  match readU8 r with
  | none => none
  | some (ffr, r) =>
  match readU8 r with
  | none => none
  | some (reserved_space, r) =>
  match readU8 r with
  | none => none
  | some (maxf, r) =>
  match readU8 r with
  | none => none
  | some (minf, r) =>
  match readU8 r with
  | none => none
  | some (leaff, r) =>
  match assertCond (maxf = 64) with
  | none => none
  | some _ =>
  match assertCond (minf = 32) with
  | none => none
  | some _ =>
  match assertCond (leaff = 32) with
  | none => none
  | some _ =>
  match readU32 r with
  | none => none
  | some (file_change_counter, r) =>
  match readU32 r with
  | none => none
  | some (database_size_in_pages, r) =>
  match readU32 r with
  | none => none
  | some (first_freelist_trunk_page, r) =>
  match readU32 r with
  | none => none
  | some (number_of_freelist_pages, r) =>
  match readU32 r with
  | none => none
  | some (schema_cookie, r) =>
  match readU32 r with
  | none => none
  | some (schema_format_number, r) =>
  match readU32 r with
  | none => none
  | some (default_page_cache_size, r) =>
  match readU32 r with
  | none => none
  | some (largest_root, r) =>
  match readU32 r with
  | none => none
  | some (text_encoding_raw, r) =>
  match readU32 r with
  | none => none
  | some (user_version, r) =>
  match readU32 r with
  | none => none
  | some (incr_raw, r) =>
  match assertCond (largest_root = 0 → incr_raw = 0) with
  | none => none
  | some _ =>
  match readU32 r with
  | none => none
  | some (application_id, r) =>
  match readBytes 20 r with
  | none => none
  | some (_, r) =>
  match readU32 r with
  | none => none
  | some (version_valid_for, r) =>
  match readU32 r with
  | none => none
  | some (sqlite_version_number, r) =>
  match fileFormatFromU8 ffw with
  | none => none
  | some ffwv =>
  match fileFormatFromU8 ffr with
  | none => none
  | some ffrv =>
  match schemaFormatFromU32 schema_format_number with
  | none => none
  | some sfv =>
  match textEncodingFromU32 text_encoding_raw with
  | none => none
  | some tev =>
  some (⟨decodePageSize page_size_raw, ffwv, ffrv, reserved_space, maxf, minf,
    leaff, file_change_counter, database_size_in_pages,
    first_freelist_trunk_page, number_of_freelist_pages, schema_cookie, sfv,
    default_page_cache_size, largest_root, tev, user_version,
    decide (incr_raw ≠ 0), application_id, version_valid_for,
    sqlite_version_number⟩, r)

/-- The byte at offset `k` of a byte list, as read by a 1-byte read there. -/
def u8At (bs : List Nat) (k : Nat) : Nat := beNat ((bs.drop k).take 1)

/-- The big-endian 16-bit value at offset `k`. -/
def u16At (bs : List Nat) (k : Nat) : Nat := beNat ((bs.drop k).take 2)

/-- The big-endian 32-bit value at offset `k`. -/
def u32At (bs : List Nat) (k : Nat) : Nat := beNat ((bs.drop k).take 4)

/-- The byte offset `load_table_at_page` seeks to (`main.rs` lines 104-108):
`(page - 1) * page_size`. -/
def loadTableOffset (page pageSize : Nat) : Nat := (page - 1) * pageSize

/-! ### The SQL lexer (`lexer.rs`)

The input is modelled as its character sequence (`List Char`) with a
cursor index; for the ASCII inputs the program handles, Rust's byte
length and character count coincide.  `Lexer::next_token` returns the
token and the new cursor; every `chars().nth(..).unwrap()` that runs past
the end of the input, and every `panic!("Unexpected character")`, is
`none`. -/

/-- `enum Token` (`lexer.rs` lines 3-36). -/
inductive Token where
  | Create
  | Table
  | Select
  | From
  | Where
  | Not
  | Null
  | Index
  | On
  | LParen
  | RParen
  | Semicolon
  | Dot
  | Comma
  | Star
  | Equals
  | StringLiteral (s : String)
  | Identifier (s : String)
  | Primary
  | Key
  | AutoIncrement
  | Eof
deriving DecidableEq

/-- The string-literal scanning loop of `next_token` (`lexer.rs` lines
116-138), over the characters after the opening quote: returns the
literal's characters and the count of characters consumed including the
closing quote.  Reaching the end of the input without a closing quote is
the `nth(..).unwrap()` panic, i.e. `none`. -/
def scanStringChars (q : Char) : List Char → Option (List Char × Nat)
  | [] => none
  | c :: rest =>
    if c = q then some ([], 1)
    else
      match scanStringChars q rest with
      | none => none
      | some (s, k) => some (c :: s, k + 1)

/-- The search step of the line-comment loop of `next_token` (`lexer.rs`
lines 101-106): offset of the first newline in the list; `none` (the
`unwrap` panic) when the input ends first. -/
def findNewline : List Char → Option Nat
  | [] => none
  | c :: rest =>
    if c = '\n' then some 0
    else
      match findNewline rest with
      | none => none
      | some k => some (k + 1)

/-- The identifier scanning loop of `next_token` (`lexer.rs` lines
142-152): the maximal prefix of alphabetic-or-underscore characters.
The Rust loop pushes the current character, advances, and re-reads until
the test fails or the input ends, which collects exactly this prefix and
leaves the cursor just past it. -/
def identTake : List Char → List Char
  | [] => []
  | c :: rest => if c.isAlpha ∨ c = '_' then c :: identTake rest else []

/-- The keyword table of `next_token` (`lexer.rs` lines 153-167): the
collected identifier is upper-cased and matched against the keywords;
anything else becomes an upper-cased `Identifier`. -/
def keywordOrIdent (ident : List Char) : Token :=
  let u := asciiUpper (String.mk ident)
  if u = "AUTOINCREMENT" then Token.AutoIncrement
  else if u = "CREATE" then Token.Create
  else if u = "TABLE" then Token.Table
  else if u = "PRIMARY" then Token.Primary
  else if u = "KEY" then Token.Key
  else if u = "SELECT" then Token.Select
  else if u = "FROM" then Token.From
  else if u = "WHERE" then Token.Where
  else if u = "NOT" then Token.Not
  else if u = "NULL" then Token.Null
  else if u = "INDEX" then Token.Index
  else if u = "ON" then Token.On
  else Token.Identifier u

/-- `Lexer::next_token` (`lexer.rs` lines 66-176).  The `fuel` argument
bounds the self-recursion used for whitespace and comments (the source
recursion is bounded by the input length; exhausted fuel is `none`).
Rust's Unicode `char::is_alphabetic`/`char::is_whitespace` are modelled by
`Char.isAlpha`/`Char.isWhitespace`, which agree on ASCII input. -/
def nextToken (cs : List Char) : Nat → Nat → Option (Token × Nat)
  | _, 0 => none
  | pos, fuel + 1 =>
    if cs.length ≤ pos then some (Token.Eof, pos)
    else
      match cs.get? pos with
      | none => none
      | some c =>
        if c = '(' then some (Token.LParen, pos + 1)
        else if c = ')' then some (Token.RParen, pos + 1)
        else if c = ';' then some (Token.Semicolon, pos + 1)
        else if c = '.' then some (Token.Dot, pos + 1)
        else if c = ',' then some (Token.Comma, pos + 1)
        else if c = '=' then some (Token.Equals, pos + 1)
        else if c = '-' then
          match cs.get? (pos + 1) with
          | none => none
          | some c2 =>
            if c2 = '-' then
              -- The Rust loop starts with the cursor at `pos + 2` but the
              -- current character still the second dash, and advances
              -- before each read, so it scans for a newline from
              -- `pos + 3` onward (never examining `pos + 2`) and leaves
              -- the cursor on the newline it finds.
              match findNewline (cs.drop (pos + 3)) with
              | none => none
              | some k => nextToken cs (pos + 3 + k) fuel
            else none
        else if c = '*' then some (Token.Star, pos + 1)
        else if c = '\'' then
          match scanStringChars '\'' (cs.drop (pos + 1)) with
          | none => none
          | some (s, k) => some (Token.StringLiteral (String.mk s), pos + 1 + k)
        else if c = '"' then
          match scanStringChars '"' (cs.drop (pos + 1)) with
          | none => none
          | some (s, k) => some (Token.StringLiteral (String.mk s), pos + 1 + k)
        else if c.isAlpha then
          let ident := identTake (cs.drop pos)
          some (keywordOrIdent ident, pos + ident.length)
        else if c.isWhitespace then nextToken cs (pos + 1) fuel
        else none

/-- The `Lexer::lex` driver loop (`lexer.rs` lines 49-64): collect tokens
until `Eof` (inclusive). -/
def lexLoop (cs : List Char) : Nat → Nat → List Token → Option (List Token)
  | _, 0, _ => none
  | pos, fuel + 1, acc =>
    match nextToken cs pos (fuel + 1) with
    | none => none
    | some (t, pos') =>
      if t = Token.Eof then some (acc ++ [Token.Eof])
      else lexLoop cs pos' fuel (acc ++ [t])

/-- `Lexer::new(input).lex()`. -/
def lexAll (s : String) (fuel : Nat) : Option (List Token) :=
  lexLoop s.data 0 fuel []

/-! ### The SQL parser (`parser.rs`) — the `parse_create` path used by the
schema catalog (`MasterPageRecord::analyse_sql_for_column_order`). -/

/-- `enum Op` (`parser.rs` lines 43-46). -/
inductive Op where
  | Equal
deriving DecidableEq

/-- `enum Constraint` (`parser.rs` lines 48-53). -/
inductive Constraint where
  | PrimaryKey
  | AutoIncrement
  | NotNull
deriving DecidableEq

/-- `enum Ast` (`parser.rs` lines 3-41). -/
inductive Ast where
  | All
  | StmtList (stmts : List Ast)
  | Stmt (stmt : Ast)
  | Select (result_columns : List Ast) (frm : Ast) (whr : Option Ast)
  | TableOrSubQuery (a : Ast)
  | Table (name : String)
  | Expr (a : Ast)
  | Function (name : String) (args : List Ast)
  | CreateTable (name : String) (column_defs : List Ast)
  | ColumnDef (name : String) (data_type : String) (constraints : List Constraint)
  | Identifier (name : String)
  | StringLiteral (value : String)
  | BinaryOp (op : Op) (lhs rhs : Ast)
  | CreateIndex (name : String) (table_name : String) (columns : List Ast)

/-- `Parser::peek_token` (`parser.rs` lines 75-81): `Eof` past the end. -/
def peekTok (ts : List Token) (pos : Nat) : Token :=
  (ts.get? pos).getD Token.Eof

/-- `Parser::peek_next` (`parser.rs` lines 83-89). -/
def peekNext (ts : List Token) (pos : Nat) : Token :=
  (ts.get? (pos + 1)).getD Token.Eof

/-- `Parser::consume` (`parser.rs` lines 91-110): an `Identifier` argument
matches any identifier; other tokens must match exactly; the mismatch
panic is `none`.  Returns the consumed token and the new position. -/
def consumeTok (ts : List Token) (pos : Nat) (t : Token) : Option (Token × Nat) :=
  match t with
  | Token.Identifier _ =>
    match peekTok ts pos with
    | Token.Identifier s => some (Token.Identifier s, pos + 1)
    | _ => none
  | _ => if peekTok ts pos = t then some (t, pos + 1) else none

/-- The constraint loop inside `parse_column_defs` (`parser.rs` lines
385-409).  A `PRIMARY` not followed by `KEY` (or `NOT` not followed by
`NULL`) makes the Rust loop spin forever; fuel exhaustion models that
non-termination as `none`. -/
def parseColumnConstraints (ts : List Token) :
    Nat → Nat → List Constraint → Option (List Constraint × Nat)
  | 0, _, _ => none
  | fuel + 1, pos, acc =>
    match peekTok ts pos with
    | Token.Primary =>
      if peekNext ts pos = Token.Key then
        parseColumnConstraints ts fuel (pos + 2) (acc ++ [Constraint.PrimaryKey])
      else parseColumnConstraints ts fuel pos acc
    | Token.Not =>
      if peekNext ts pos = Token.Null then
        parseColumnConstraints ts fuel (pos + 2) (acc ++ [Constraint.NotNull])
      else parseColumnConstraints ts fuel pos acc
    | Token.AutoIncrement =>
      parseColumnConstraints ts fuel (pos + 1) (acc ++ [Constraint.AutoIncrement])
    | Token.Comma => some (acc, pos)
    | Token.RParen => some (acc, pos)
    | _ => none

/-- `Parser::parse_column_defs` (`parser.rs` lines 365-425). -/
def parseColumnDefs (ts : List Token) :
    Nat → Nat → List Ast → Option (List Ast × Nat)
  | 0, _, _ => none
  | fuel + 1, pos, acc =>
    match
      (match peekTok ts pos with
       | Token.Identifier n => some n
       | Token.StringLiteral n => some (asciiUpper n)
       | _ => none) with
    | none => none
    | some name =>
    match consumeTok ts (pos + 1) (Token.Identifier "") with
    | none => none
    | some (dt, pos2) =>
    match dt with
    | Token.Identifier data_type =>
      match parseColumnConstraints ts (fuel + 1) pos2 [] with
      | none => none
      | some (constraints, pos3) =>
        let acc := acc ++ [Ast.ColumnDef name data_type constraints]
        if peekTok ts pos3 = Token.Comma then
          match consumeTok ts pos3 Token.Comma with
          | none => none
          | some (_, pos4) => parseColumnDefs ts fuel pos4 acc
        else some (acc, pos3)
    | _ => none

/-- `Parser::sqlite_sequence_hack` (`parser.rs` lines 341-363). -/
def sqliteSequenceHack (ts : List Token) (pos : Nat) : Option (Ast × Nat) :=
  match consumeTok ts pos Token.LParen with
  | none => none
  | some (_, pos) =>
  match consumeTok ts pos (Token.Identifier "") with
  | none => none
  | some (_, pos) =>
  match consumeTok ts pos Token.Comma with
  | none => none
  | some (_, pos) =>
  match consumeTok ts pos (Token.Identifier "") with
  | none => none
  | some (_, pos) =>
  match consumeTok ts pos Token.RParen with
  | none => none
  | some (_, pos) =>
  some (Ast.CreateTable "SQLITE_SEQUENCE"
    [Ast.ColumnDef "NAME" "TEXT" [], Ast.ColumnDef "SEQ" "INTEGER" []], pos)

/-- `Parser::parse_create_table` (`parser.rs` lines 270-291). -/
def parseCreateTable (ts : List Token) (fuel : Nat) (pos : Nat) :
    Option (Ast × Nat) :=
  match consumeTok ts pos Token.Table with
  | none => none
  | some (_, pos) =>
  match
    (match peekTok ts pos with
     | Token.Identifier n => some n
     | Token.StringLiteral n => some n
     | _ => none) with
  | none => none
  | some name =>
  if name = "SQLITE_SEQUENCE" then sqliteSequenceHack ts (pos + 1)
  else
    match consumeTok ts (pos + 1) Token.LParen with
    | none => none
    | some (_, pos2) =>
    match parseColumnDefs ts fuel pos2 [] with
    | none => none
    | some (column_defs, pos3) =>
    match consumeTok ts pos3 Token.RParen with
    | none => none
    | some (_, pos4) => some (Ast.CreateTable name column_defs, pos4)

/-- The column-list loop inside `parse_create_index` (`parser.rs` lines
313-330). -/
def indexColumnsLoop (ts : List Token) :
    Nat → Nat → List Ast → Option (List Ast × Nat)
  | 0, _, _ => none
  | fuel + 1, pos, acc =>
    if peekTok ts pos = Token.RParen then some (acc, pos)
    else
      let pos :=
        if peekTok ts pos = Token.Comma then pos + 1 else pos
      match peekTok ts pos with
      | Token.Identifier n => indexColumnsLoop ts fuel (pos + 1) (acc ++ [Ast.Identifier n])
      | Token.StringLiteral n => indexColumnsLoop ts fuel (pos + 1) (acc ++ [Ast.Identifier n])
      | _ => none

/-- `Parser::parse_create_index` (`parser.rs` lines 293-339). -/
def parseCreateIndex (ts : List Token) (fuel : Nat) (pos : Nat) :
    Option (Ast × Nat) :=
  match consumeTok ts pos Token.Index with
  | none => none
  | some (_, pos) =>
  match
    (match peekTok ts pos with
     | Token.Identifier n => some n
     | Token.StringLiteral n => some n
     | _ => none) with
  | none => none
  | some name =>
  match consumeTok ts (pos + 1) Token.On with
  | none => none
  | some (_, pos2) =>
  match
    (match peekTok ts pos2 with
     | Token.Identifier n => some n
     | Token.StringLiteral n => some n
     | _ => none) with
  | none => none
  | some table_name =>
  match consumeTok ts (pos2 + 1) Token.LParen with
  | none => none
  | some (_, pos3) =>
  match indexColumnsLoop ts fuel pos3 [] with
  | none => none
  | some (columns, pos4) =>
  match consumeTok ts pos4 Token.RParen with
  | none => none
  | some (_, pos5) => some (Ast.CreateIndex name table_name columns, pos5)

/-- `Parser::parse_create` (`parser.rs` lines 260-268). -/
def parseCreate (ts : List Token) (fuel : Nat) (pos : Nat) : Option (Ast × Nat) :=
  match consumeTok ts pos Token.Create with
  | none => none
  | some (_, pos) =>
    match peekTok ts pos with
    | Token.Table => parseCreateTable ts fuel pos
    | Token.Index => parseCreateIndex ts fuel pos
    | _ => none

/-! ### The schema catalog (`main.rs`, `MasterPageRecord`) -/

/-- Insertion step of a stable ascending sort on strings (Rust
`Vec::sort`, used on index columns at `main.rs` line 1293). -/
def insertSorted (s : String) : List String → List String
  | [] => [s]
  | t :: rest => if t < s then t :: insertSorted s rest else s :: t :: rest

/-- Rust `Vec::<String>::sort()`: stable ascending lexicographic sort. -/
def sortStrings (l : List String) : List String :=
  l.foldr insertSorted []

/-- `MasterPageRecord::analyse_sql_for_column_order` (`main.rs` lines
1258-1298): re-lex and re-parse the stored DDL, extract the column names;
for a `CREATE INDEX` the source *sorts* the column names. -/
def analyseSqlForColumnOrder (sql : String) : Option (List String) :=
  match lexAll sql 10000 with
  | none => none
  | some tokens =>
  match parseCreate tokens 10000 0 with
  | none => none
  | some (ast, _) =>
  match ast with
  | Ast.CreateTable _ column_defs =>
    column_defs.mapM (fun c =>
      match c with
      | Ast.ColumnDef name _ _ => some name
      | _ => none)
  | Ast.CreateIndex _ _ columns =>
    (columns.mapM (fun c =>
      match c with
      | Ast.Identifier name => some name
      | _ => none)).map sortStrings
  | _ => none

/-- `struct MasterPageRecord` (`main.rs` lines 1222-1231). -/
structure MasterPageRecord where
  table_type : String
  name : String
  table_name : String
  root_page : Nat
  sql : String
  columns : List String
deriving DecidableEq

/-- `MasterPageRecord::get_column_index` (`main.rs` lines 1300-1305):
position of the column in `columns`; the `unwrap` panic is `none`. -/
def getColumnIndex (m : MasterPageRecord) (column_name : String) : Option Nat :=
  m.columns.findIdx? (fun col => col = column_name)

/-! ### Pages, records and the B-tree traversal (`main.rs`) -/

/-- `enum PageType` (`main.rs` lines 678-684). -/
inductive PageType where
  | InteriorIndex
  | InteriorTable
  | LeafIndex
  | LeafTable
deriving DecidableEq

/-- `struct DataSpecification` (`main.rs` lines 1139-1144).  Traversal
never reads it; record literals below leave it at its default. -/
structure DataSpecification where
  size : Nat := 0
  types : List DataType := []
deriving DecidableEq

/-- `struct TableLeafRecordHeader` (`main.rs` lines 1196-1201). -/
structure TableLeafRecordHeader where
  size : Nat := 0
  row_id : Nat
deriving DecidableEq

/-- `struct TableLeafRecord` (`main.rs` lines 1130-1137).  The decoded
`values` drive all behaviour; `payload` and `data_specification` are
carried but never read by the traversal or the executor. -/
structure TableLeafRecord where
  header : TableLeafRecordHeader
  data_specification : DataSpecification := {}
  payload : List Nat := []
  values : List Value
deriving DecidableEq

/-- `struct IndexLeafRecord` (`main.rs` lines 878-886). -/
structure IndexLeafRecord where
  length : Nat := 0
  payload : List Nat := []
  oveflow : Option Nat := none
  data_specification : DataSpecification := {}
  values : List Value
deriving DecidableEq

/-- `struct InteriorTableRecord` (`main.rs` lines 1203-1208). -/
structure InteriorTableRecord where
  left_child_page : Nat
  key : Nat
deriving DecidableEq

/-- `struct InteriorIndexRecord` (`main.rs` lines 888-896). -/
structure InteriorIndexRecord where
  left_child : Nat
  length : Nat := 0
  key : List Nat := []
  data_specification : DataSpecification := {}
  values : List Value
deriving DecidableEq

/-- `enum DbRecord` (`main.rs` lines 869-876). -/
inductive DbRecord where
  | TableLeafRecord (r : TableLeafRecord)
  | IndexLeafRecord (r : IndexLeafRecord)
  | InteriorTableRecord (r : InteriorTableRecord)
  | InteriorIndexRecord (r : InteriorIndexRecord)
deriving DecidableEq

/-- `struct DbPageHeader` (`main.rs` lines 698-708). -/
structure DbPageHeader where
  page_type : PageType
  first_freeblock : Nat := 0
  cell_count : Nat := 0
  cell_content_area_offset : Nat := 0
  fragmented_free_bytes : Nat := 0
  rightmost_pointer : Option Nat := none
  cells : List Nat := []
deriving DecidableEq

/-- `struct DbPage` (`main.rs` lines 762-767), already decoded: `records`
holds the cells in cell-pointer order, as produced by `DbPage::parse`. -/
structure DbPage where
  header : DbPageHeader
  records : List DbRecord
deriving DecidableEq

/-- The `Db` state (`main.rs` lines 35-40) after `Db::new`: the open file
is abstracted as the list of its decoded pages in page-number order
(page `n` at index `n - 1`; `load_table_at_page` seeks to
`(page - 1) * page_size` and parses the page found there, which is
exactly the page-number indexing modelled here — see `loadTableOffset`),
`master_page` holds page 1's decoded records, and `master_page_records`
their parsed catalog entries. -/
structure Db where
  pages : List DbPage
  master_page : List DbRecord
  master_page_records : List MasterPageRecord

/-- `Db::load_table_at_page` (`main.rs` lines 104-108): fetch the page by
page number; a page outside the file fails to parse (`none`). -/
def loadTableAtPage (db : Db) (page : Nat) : Option DbPage :=
  db.pages.get? (page - 1)

/-- `MasterPageRecord::parse` (`main.rs` lines 1233-1256): only a
`TableLeafRecord` is accepted (`panic!("Not implemented")` otherwise);
`values[0..4]` convert via the `TryInto` impls, and the stored SQL is
re-parsed for the column list. -/
def masterPageRecordParse (r : DbRecord) : Option MasterPageRecord :=
  match r with
  | DbRecord.TableLeafRecord t =>
    match (t.values.get? 0).bind valueTryIntoString with
    | none => none
    | some table_type =>
    match (t.values.get? 1).bind valueTryIntoString with
    | none => none
    | some name =>
    match (t.values.get? 2).bind valueTryIntoString with
    | none => none
    | some table_name =>
    match (t.values.get? 3).bind valueTryIntoU32 with
    | none => none
    | some root_page =>
    match (t.values.get? 4).bind valueTryIntoString with
    | none => none
    | some sql =>
    match analyseSqlForColumnOrder sql with
    | none => none
    | some columns =>
      some ⟨table_type, name, table_name, root_page, sql, columns⟩
  | _ => none

/-- `Db::get_table` (`main.rs` lines 73-80): first catalog entry whose
`table_name` matches case-insensitively; the `unwrap` panic is `none`. -/
def getTable (db : Db) (table_name : String) : Option MasterPageRecord :=
  db.master_page_records.find?
    (fun record => asciiLower record.table_name = asciiLower table_name)

/-- The `find` closure scan inside `Db::get_table_record` (`main.rs`
lines 84-91): parse each raw master record in turn until the name
matches; a record that fails to parse panics the closure. -/
def findMasterRecord : List DbRecord → String → Option DbRecord
  | [], _ => none
  | r :: rest, table_name =>
    match masterPageRecordParse r with
    | none => none
    | some m =>
      if asciiLower m.name = asciiLower table_name then some r
      else findMasterRecord rest table_name

/-- `Db::get_table_record` (`main.rs` lines 82-97). -/
def getTableRecord (db : Db) (table_name : String) : Option TableLeafRecord :=
  match findMasterRecord db.master_page table_name with
  | some (DbRecord.TableLeafRecord t) => some t
  | _ => none

/-- `Db::load_table` (`main.rs` lines 99-102). -/
def loadTable (db : Db) (table : MasterPageRecord) : Option DbPage :=
  loadTableAtPage db table.root_page

/-- `Db::get_index_for_column_and_table` (`main.rs` lines 271-284). -/
def getIndexForColumnAndTable (db : Db) (table : String) (column_name : String) :
    Option MasterPageRecord :=
  db.master_page_records.find?
    (fun record =>
      record.table_name = table ∧ column_name ∈ record.columns ∧
        record.table_type = "index")

/-- The cell loop of the `LeafIndex` arm (`main.rs` lines 234-248): keep
each cell whose first value equals the where-clause value (derived
`PartialEq`, i.e. structural equality). -/
def leafIndexLoop : List DbRecord → Option (Nat × Value) → Option (List DbRecord)
  | [], _ => some []
  | record :: rest, where_clause =>
    match record with
    | DbRecord.IndexLeafRecord ilrecord =>
      match where_clause with
      | none => none
      | some wc =>
        match ilrecord.values.get? 0 with
        | none => none
        | some ilrecord_value =>
          match leafIndexLoop rest where_clause with
          | none => none
          | some rows =>
            if ilrecord_value = wc.2 then
              some (DbRecord.IndexLeafRecord ilrecord :: rows)
            else some rows
    | _ => none

/-- The cell loop of the `LeafTable` arm (`main.rs` lines 249-267).  With
a row-id list, a record is kept when `row_id as u32` is in the list, and
the matched id is then removed (`Vec::retain`); without one, every record
is kept. -/
def leafTableLoop : List DbRecord → Option (List Nat) →
    Option (List DbRecord × Option (List Nat))
  | [], row_ids => some ([], row_ids)
  | record :: rest, row_ids =>
    match record with
    | DbRecord.TableLeafRecord trecord =>
      match row_ids with
      | some ids =>
        if trecord.header.row_id % 2 ^ 32 ∈ ids then
          match leafTableLoop rest
              (some (ids.filter (fun id => id ≠ trecord.header.row_id % 2 ^ 32))) with
          | none => none
          | some (rows, row_ids1) =>
            some (DbRecord.TableLeafRecord trecord :: rows, row_ids1)
        else leafTableLoop rest (some ids)
      | none =>
        match leafTableLoop rest none with
        | none => none
        | some (rows, row_ids1) =>
          some (DbRecord.TableLeafRecord trecord :: rows, row_ids1)
    | _ => none

/-- The cell loop of the `InteriorIndex` arm (`main.rs` lines 150-182),
including its two `break`s; `recurse` is the recursive descent
`recurse_page_for_rows` makes into a loaded child page with the current
row-id list (the rightmost-child descent that follows the loop lives in
`recursePageForRows`). -/
def interiorIndexLoop (db : Db)
    (recurse : DbPage → Option (List Nat) → Option (List DbRecord × Option (List Nat))) :
    List DbRecord → Option (Nat × Value) → Option (List Nat) →
      Option (List DbRecord × Option (List Nat))
  | [], _, row_ids => some ([], row_ids)
  | record :: rest, where_clause, row_ids =>
    match record with
    | DbRecord.InteriorIndexRecord irecord =>
      match where_clause with
      | none => none
      | some wc =>
        match irecord.values.get? 0 with
        | none => none
        | some irecord_value =>
          if bytesLt (valueBytes wc.2) (valueBytes irecord_value) then
            match loadTableAtPage db irecord.left_child with
            | none => none
            | some pg => recurse pg row_ids
          else if irecord_value = wc.2 then
            match loadTableAtPage db irecord.left_child with
            | none => none
            | some pg =>
              match recurse pg row_ids with
              | none => none
              | some (rows, row_ids1) =>
                some (DbRecord.InteriorIndexRecord irecord :: rows, row_ids1)
          else interiorIndexLoop db recurse rest where_clause row_ids
    | _ => none

/-- The cell loop of the `InteriorTable` arm (`main.rs` lines 218-232):
descend into every cell's left child, threading the row-id list. -/
def interiorTableLoop (db : Db)
    (recurse : DbPage → Option (List Nat) → Option (List DbRecord × Option (List Nat))) :
    List DbRecord → Option (List Nat) →
      Option (List DbRecord × Option (List Nat))
  | [], row_ids => some ([], row_ids)
  | record :: rest, row_ids =>
    match record with
    | DbRecord.InteriorTableRecord irecord =>
      match loadTableAtPage db irecord.left_child_page with
      | none => none
      | some pg =>
        match recurse pg row_ids with
        | none => none
        | some (rows1, row_ids1) =>
          match interiorTableLoop db recurse rest row_ids1 with
          | none => none
          | some (rows2, row_ids2) => some (rows1 ++ rows2, row_ids2)
    | _ => none

/-- `Db::recurse_page_for_rows` (`main.rs` lines 133-269).  Arguments
mirror the source: the current page, the (unused) `table_key`, the
optional `(column index, value)` where-clause, and the optional mutable
row-id work list.  Returns the records pushed onto `rows` by this call
together with the final state of the row-id list.  `fuel` bounds the
page recursion (the Rust recursion is unbounded on cyclic page graphs);
all panics and `unreachable!()` arms are `none`.

Two behaviours of the source worth noting are preserved exactly:
the `InteriorTable` arm without a row-id list recurses into each cell's
left child but never into `rightmost_pointer`, and the row-id-directed
arm descends into the *first* cell's left child when
`first_row_id >= first_record.key` and into the rightmost child when
`first_row_id <= last_record.key`. -/
def recursePageForRows (db : Db) :
    Nat → DbPage → Nat → Option (Nat × Value) → Option (List Nat) →
      Option (List DbRecord × Option (List Nat))
  | 0, _, _, _, _ => none
  | fuel + 1, cur_page, table_key, where_clause, row_ids =>
    if row_ids.isSome ∧ row_ids.getD [] = [] then some ([], row_ids)
    else
      match cur_page.header.page_type with
      | PageType.InteriorIndex =>
        match interiorIndexLoop db
            (fun pg ri => recursePageForRows db fuel pg table_key where_clause ri)
            cur_page.records where_clause row_ids with
        | none => none
        | some (rows1, row_ids1) =>
          match cur_page.header.rightmost_pointer with
          | none => none
          | some rp =>
            match loadTableAtPage db rp with
            | none => none
            | some pg =>
              match recursePageForRows db fuel pg table_key where_clause
                  row_ids1 with
              | none => none
              | some (rows2, row_ids2) => some (rows1 ++ rows2, row_ids2)
      | PageType.InteriorTable =>
        match row_ids with
        | some ids =>
          match ids.head?, cur_page.records.head?, cur_page.records.getLast? with
          | some first_row_id, some firstRec, some lastRec =>
            match firstRec, lastRec with
            | DbRecord.InteriorTableRecord fr, DbRecord.InteriorTableRecord lr =>
              if fr.key ≤ first_row_id then
                match loadTableAtPage db fr.left_child_page with
                | none => none
                | some pg =>
                  recursePageForRows db fuel pg table_key where_clause row_ids
              else if first_row_id ≤ lr.key then
                match cur_page.header.rightmost_pointer with
                | none => none
                | some rp =>
                  match loadTableAtPage db rp with
                  | none => none
                  | some pg =>
                    recursePageForRows db fuel pg table_key where_clause row_ids
              else
                interiorTableLoop db
                  (fun pg ri => recursePageForRows db fuel pg table_key where_clause ri)
                  cur_page.records row_ids
            | _, _ => none
          | _, _, _ => none
        | none =>
          interiorTableLoop db
            (fun pg ri => recursePageForRows db fuel pg table_key where_clause ri)
            cur_page.records none
      | PageType.LeafIndex =>
        match leafIndexLoop cur_page.records where_clause with
        | none => none
        | some rows => some (rows, row_ids)
      | PageType.LeafTable => leafTableLoop cur_page.records row_ids


/-- `Db::get_table_rows` (`main.rs` lines 110-131): resolve the table
record (for `table_key`), load the root page, recurse, and downcast every
collected row to a `TableLeafRecord` (`unreachable!()` otherwise). -/
def getTableRows (db : Db) (fuel : Nat) (table : MasterPageRecord)
    (row_ids : Option (List Nat)) : Option (List TableLeafRecord) :=
  match getTableRecord db table.name with
  | none => none
  | some table_record =>
  match loadTable db table with
  | none => none
  | some db_page =>
  match recursePageForRows db fuel db_page table_record.header.row_id none
      row_ids with
  | none => none
  | some (rows, _) =>
    rows.mapM (fun row =>
      match row with
      | DbRecord.TableLeafRecord trecord => some trecord
      | _ => none)

/-- `Db::fetch_rows_from_index` (`main.rs` lines 286-316): walk the index
B-tree with the where-clause on the first indexed column, read each hit's
trailing value as a row id (`values[1]`, `TryInto<u32>`), then fetch those
row ids from the table B-tree. -/
def fetchRowsFromIndex (db : Db) (fuel : Nat) (index_record : MasterPageRecord)
    (value : Value) : Option (List TableLeafRecord) :=
  match index_record.columns.get? 0 with
  | none => none
  | some col0 =>
  match getColumnIndex index_record col0 with
  | none => none
  | some column_index =>
  match getTableRecord db index_record.table_name with
  | none => none
  | some table_record =>
  match loadTableAtPage db index_record.root_page with
  | none => none
  | some cur_page =>
  match recursePageForRows db fuel cur_page table_record.header.row_id
      (some (column_index, value)) none with
  | none => none
  | some (rows, _) =>
  match rows.mapM (fun row =>
      match row with
      | DbRecord.IndexLeafRecord ilrecord =>
        (ilrecord.values.get? 1).bind valueTryIntoU32
      | _ => none) with
  | none => none
  | some row_ids =>
  match getTable db index_record.table_name with
  | none => none
  | some table_to_fetch => getTableRows db fuel table_to_fetch (some row_ids)

/-! ### Executor steps (`sql_engine.rs`) -/

/-- The `QueryStep::Filter` step (`sql_engine.rs` lines 41-58): keep the
rows whose value at the column index equals the query literal, via the
derived `PartialEq` of `Value` (`record_value == value`); the row
indexing `record.values[col_index]` panics when out of bounds. -/
def filterRows (col_index : Nat) (value : Value) :
    List TableLeafRecord → Option (List TableLeafRecord)
  | [] => some []
  | row :: rest =>
    match row.values.get? col_index with
    | none => none
    | some record_value =>
      match filterRows col_index value rest with
      | none => none
      | some rows =>
        if valueEqRust record_value value then some (row :: rows)
        else some rows

/-- The `"tables"` arm of `handle_dot_command` (`main.rs` lines 340-352):
it prints *two* lines — first `number of tables: <cell_count>`, then the
`name` fields of all master-page records joined by single spaces. -/
def tablesOutput (master_page : DbPage) : Option (List String) :=
  match master_page.records.mapM
      (fun record => (masterPageRecordParse record).map (fun m => m.name)) with
  | none => none
  | some table_names =>
    some ["number of tables: " ++ toString master_page.header.cell_count,
      String.intercalate " " table_names]

/-! ### A concrete database used by the counterexample theorems

A two-level table B-tree (interior root, page 2) with two cells
(key 20 over left child page 3, key 40 over left child page 4) and
rightmost child page 5, plus a single-leaf index B-tree (page 6) on
column `c` of table `t`.  Every interior key equals the largest row id
of its left subtree, as SQLite writes them.  The master page (page 1)
holds the two catalog rows. -/

/-- Leaf row with row id 20, `c = "B"` (first subtree of the table root). -/
def recRowid20 : TableLeafRecord :=
  { header := { row_id := 20 }, values := [Value.Text "B"] }

/-- Leaf row with row id 40, `c = "A"` (second subtree of the table root). -/
def recRowid40 : TableLeafRecord :=
  { header := { row_id := 40 }, values := [Value.Text "A"] }

/-- Leaf row with row id 60, `c = "C"` (rightmost subtree of the table root). -/
def recRowid60 : TableLeafRecord :=
  { header := { row_id := 60 }, values := [Value.Text "C"] }

/-- The `sqlite_master` row describing table `t` (root page 2). -/
def masterRowT : TableLeafRecord :=
  { header := { row_id := 1 },
    values := [Value.Text "table", Value.Text "t", Value.Text "t",
      Value.Int 2, Value.Text "CREATE TABLE t (c text)"] }

/-- The `sqlite_master` row describing index `i` on `t(c)` (root page 6). -/
def masterRowI : TableLeafRecord :=
  { header := { row_id := 2 },
    values := [Value.Text "index", Value.Text "i", Value.Text "t",
      Value.Int 6, Value.Text "CREATE INDEX i ON t (c)"] }

/-- Page 1: the master page. -/
def pageMaster : DbPage :=
  { header := { page_type := PageType.LeafTable, cell_count := 2 },
    records := [DbRecord.TableLeafRecord masterRowT,
      DbRecord.TableLeafRecord masterRowI] }

/-- Page 2: the interior root of table `t`'s B-tree. -/
def pageRootT : DbPage :=
  { header := { page_type := PageType.InteriorTable, cell_count := 2,
                rightmost_pointer := some 5 },
    records := [DbRecord.InteriorTableRecord { left_child_page := 3, key := 20 },
      DbRecord.InteriorTableRecord { left_child_page := 4, key := 40 }] }

/-- Page 3: first leaf of table `t`. -/
def pageLeaf3 : DbPage :=
  { header := { page_type := PageType.LeafTable, cell_count := 1 },
    records := [DbRecord.TableLeafRecord recRowid20] }

/-- Page 4: second leaf of table `t`. -/
def pageLeaf4 : DbPage :=
  { header := { page_type := PageType.LeafTable, cell_count := 1 },
    records := [DbRecord.TableLeafRecord recRowid40] }

/-- Page 5: rightmost leaf of table `t`. -/
def pageLeaf5 : DbPage :=
  { header := { page_type := PageType.LeafTable, cell_count := 1 },
    records := [DbRecord.TableLeafRecord recRowid60] }

/-- Page 6: the leaf root of index `i`, mapping key `"A"` to row id 40. -/
def pageIdx6 : DbPage :=
  { header := { page_type := PageType.LeafIndex, cell_count := 1 },
    records := [DbRecord.IndexLeafRecord
      { values := [Value.Text "A", Value.Int 40] }] }

/-- The catalog entry for table `t`, as `MasterPageRecord::parse` builds it
from `masterRowT` (see `dbEx_catalog_coherent`). -/
def tblEntry : MasterPageRecord :=
  ⟨"table", "t", "t", 2, "CREATE TABLE t (c text)", ["C"]⟩

/-- The catalog entry for index `i`, as `MasterPageRecord::parse` builds it
from `masterRowI` (see `dbEx_catalog_coherent`). -/
def idxEntry : MasterPageRecord :=
  ⟨"index", "i", "t", 6, "CREATE INDEX i ON t (c)", ["C"]⟩

/-- The whole database state after `Db::new`. -/
def dbEx : Db :=
  { pages := [pageMaster, pageRootT, pageLeaf3, pageLeaf4, pageLeaf5, pageIdx6],
    master_page := [DbRecord.TableLeafRecord masterRowT,
      DbRecord.TableLeafRecord masterRowI],
    master_page_records := [tblEntry, idxEntry] }

/-- The stored catalog entries of `dbEx` are exactly what
`MasterPageRecord::parse` (including the re-lex and re-parse of the
stored DDL) produces from its raw master-page rows, as `Db::new` does. -/
lemma dbEx_catalog_coherent :
    dbEx.master_page.mapM masterPageRecordParse = some [tblEntry, idxEntry] := by
  decide

/-! ### Helper lemmas about the byte readers -/

lemma readBytes_some {n : Nat} {bs v rest : List Nat}
    (h : readBytes n bs = some (v, rest)) :
    v = bs.take n ∧ rest = bs.drop n ∧ n ≤ bs.length := by
  unfold readBytes at h
  split at h
  · exact Option.noConfusion h
  · next hn =>
    injection h with h'
    injection h' with h1 h2
    exact ⟨h1.symm, h2.symm, by omega⟩

lemma readU8_some {bs : List Nat} {v : Nat} {rest : List Nat}
    (h : readU8 bs = some (v, rest)) :
    v = beNat (bs.take 1) ∧ rest = bs.drop 1 ∧ 1 ≤ bs.length := by
  unfold readU8 at h
  obtain ⟨⟨w, r⟩, hb, hf⟩ := Option.map_eq_some'.mp h
  obtain ⟨h1, h2, h3⟩ := readBytes_some hb
  injection hf with hv hr
  exact ⟨by rw [← hv, h1], by rw [← hr, h2], h3⟩

lemma readU16_some {bs : List Nat} {v : Nat} {rest : List Nat}
    (h : readU16 bs = some (v, rest)) :
    v = beNat (bs.take 2) ∧ rest = bs.drop 2 ∧ 2 ≤ bs.length := by
  unfold readU16 at h
  obtain ⟨⟨w, r⟩, hb, hf⟩ := Option.map_eq_some'.mp h
  obtain ⟨h1, h2, h3⟩ := readBytes_some hb
  injection hf with hv hr
  exact ⟨by rw [← hv, h1], by rw [← hr, h2], h3⟩

lemma readU32_some {bs : List Nat} {v : Nat} {rest : List Nat}
    (h : readU32 bs = some (v, rest)) :
    v = beNat (bs.take 4) ∧ rest = bs.drop 4 ∧ 4 ≤ bs.length := by
  unfold readU32 at h
  obtain ⟨⟨w, r⟩, hb, hf⟩ := Option.map_eq_some'.mp h
  obtain ⟨h1, h2, h3⟩ := readBytes_some hb
  injection hf with hv hr
  exact ⟨by rw [← hv, h1], by rw [← hr, h2], h3⟩

lemma assertCond_some {c : Prop} [Decidable c] {u : Unit}
    (h : assertCond c = some u) : c := by
  unfold assertCond at h
  split at h
  · assumption
  · exact Option.noConfusion h

lemma fileFormatFromU8_some {b : Nat} {f : FileFormat}
    (h : fileFormatFromU8 b = some f) : b = 1 ∨ b = 2 := by
  unfold fileFormatFromU8 at h
  split at h
  · left; assumption
  · split at h
    · right; assumption
    · exact Option.noConfusion h

lemma schemaFormatFromU32_some {n : Nat} {f : SchemaFormat}
    (h : schemaFormatFromU32 n = some f) : 1 ≤ n ∧ n ≤ 4 := by
  unfold schemaFormatFromU32 at h
  split at h
  · omega
  · split at h
    · omega
    · split at h
      · omega
      · split at h
        · omega
        · exact Option.noConfusion h

lemma textEncodingFromU32_some {n : Nat} {f : TextEncoding}
    (h : textEncodingFromU32 n = some f) : 1 ≤ n ∧ n ≤ 3 := by
  unfold textEncodingFromU32 at h
  split at h
  · omega
  · split at h
    · omega
    · split at h
      · omega
      · exact Option.noConfusion h

set_option maxHeartbeats 2000000 in
/-- Characterization of a successful header parse: exactly 100 bytes are
consumed, and the magic, payload-fraction and discriminant conditions all
hold of the input bytes; the decoded page size is the decode of the
16-bit big-endian value at offset 16. -/
lemma dbHeaderParse_some_spec {bs : List Nat} {hdr : DbHeader} {rest : List Nat}
    (h : dbHeaderParse bs = some (hdr, rest)) :
    100 ≤ bs.length ∧ rest = bs.drop 100 ∧ bs.take 16 = sqliteMagicBytes ∧
    hdr.page_size = decodePageSize (u16At bs 16) ∧
    u8At bs 21 = 64 ∧ u8At bs 22 = 32 ∧ u8At bs 23 = 32 ∧
    (u8At bs 18 = 1 ∨ u8At bs 18 = 2) ∧ (u8At bs 19 = 1 ∨ u8At bs 19 = 2) ∧
    (1 ≤ u32At bs 44 ∧ u32At bs 44 ≤ 4) ∧ (1 ≤ u32At bs 56 ∧ u32At bs 56 ≤ 3) := by
  unfold dbHeaderParse at h
  rcases h1 : readBytes 16 bs with _ | ⟨magic, r1⟩
  · rw [h1] at h; exact Option.noConfusion h
  rw [h1] at h; dsimp only at h
  rcases hA1 : assertCond (magic = sqliteMagicBytes) with _ | u1
  · rw [hA1] at h; exact Option.noConfusion h
  rw [hA1] at h; dsimp only at h
  rcases h2 : readU16 r1 with _ | ⟨page_size_raw, r2⟩
  · rw [h2] at h; exact Option.noConfusion h
  rw [h2] at h; dsimp only at h
  rcases h3 : readU8 r2 with _ | ⟨ffw, r3⟩
  · rw [h3] at h; exact Option.noConfusion h
  rw [h3] at h; dsimp only at h
  rcases h4 : readU8 r3 with _ | ⟨ffr, r4⟩
  · rw [h4] at h; exact Option.noConfusion h
  rw [h4] at h; dsimp only at h
  rcases h5 : readU8 r4 with _ | ⟨reservedv, r5⟩
  · rw [h5] at h; exact Option.noConfusion h
  rw [h5] at h; dsimp only at h
  rcases h6 : readU8 r5 with _ | ⟨maxf, r6⟩
  · rw [h6] at h; exact Option.noConfusion h
  rw [h6] at h; dsimp only at h
  rcases h7 : readU8 r6 with _ | ⟨minf, r7⟩
  · rw [h7] at h; exact Option.noConfusion h
  rw [h7] at h; dsimp only at h
  rcases h8 : readU8 r7 with _ | ⟨leaff, r8⟩
  · rw [h8] at h; exact Option.noConfusion h
  rw [h8] at h; dsimp only at h
  rcases hA2 : assertCond (maxf = 64) with _ | u2
  · rw [hA2] at h; exact Option.noConfusion h
  rw [hA2] at h; dsimp only at h
  rcases hA3 : assertCond (minf = 32) with _ | u3
  · rw [hA3] at h; exact Option.noConfusion h
  rw [hA3] at h; dsimp only at h
  rcases hA4 : assertCond (leaff = 32) with _ | u4
  · rw [hA4] at h; exact Option.noConfusion h
  rw [hA4] at h; dsimp only at h
  rcases h9 : readU32 r8 with _ | ⟨changev, r9⟩
  · rw [h9] at h; exact Option.noConfusion h
  rw [h9] at h; dsimp only at h
  rcases h10 : readU32 r9 with _ | ⟨dbsizev, r10⟩
  · rw [h10] at h; exact Option.noConfusion h
  rw [h10] at h; dsimp only at h
  rcases h11 : readU32 r10 with _ | ⟨freelistv, r11⟩
  · rw [h11] at h; exact Option.noConfusion h
  rw [h11] at h; dsimp only at h
  rcases h12 : readU32 r11 with _ | ⟨freecountv, r12⟩
  · rw [h12] at h; exact Option.noConfusion h
  rw [h12] at h; dsimp only at h
  rcases h13 : readU32 r12 with _ | ⟨cookiev, r13⟩
  · rw [h13] at h; exact Option.noConfusion h
  rw [h13] at h; dsimp only at h
  rcases h14 : readU32 r13 with _ | ⟨schemafmtv, r14⟩
  · rw [h14] at h; exact Option.noConfusion h
  rw [h14] at h; dsimp only at h
  rcases h15 : readU32 r14 with _ | ⟨cachev, r15⟩
  · rw [h15] at h; exact Option.noConfusion h
  rw [h15] at h; dsimp only at h
  rcases h16 : readU32 r15 with _ | ⟨largestv, r16⟩
  · rw [h16] at h; exact Option.noConfusion h
  rw [h16] at h; dsimp only at h
  rcases h17 : readU32 r16 with _ | ⟨textencv, r17⟩
  · rw [h17] at h; exact Option.noConfusion h
  rw [h17] at h; dsimp only at h
  rcases h18 : readU32 r17 with _ | ⟨userv, r18⟩
  · rw [h18] at h; exact Option.noConfusion h
  rw [h18] at h; dsimp only at h
  rcases h19 : readU32 r18 with _ | ⟨incrv, r19⟩
  · rw [h19] at h; exact Option.noConfusion h
  rw [h19] at h; dsimp only at h
  rcases hA5 : assertCond (largestv = 0 → incrv = 0) with _ | u5
  · rw [hA5] at h; exact Option.noConfusion h
  rw [hA5] at h; dsimp only at h
  rcases h20 : readU32 r19 with _ | ⟨appidv, r20⟩
  · rw [h20] at h; exact Option.noConfusion h
  rw [h20] at h; dsimp only at h
  rcases h21 : readBytes 20 r20 with _ | ⟨skipv, r21⟩
  · rw [h21] at h; exact Option.noConfusion h
  rw [h21] at h; dsimp only at h
  rcases h22 : readU32 r21 with _ | ⟨vervalidv, r22⟩
  · rw [h22] at h; exact Option.noConfusion h
  rw [h22] at h; dsimp only at h
  rcases h23 : readU32 r22 with _ | ⟨sqliteverv, r23⟩
  · rw [h23] at h; exact Option.noConfusion h
  rw [h23] at h; dsimp only at h
  rcases hc1 : fileFormatFromU8 ffw with _ | ffwv
  · rw [hc1] at h; exact Option.noConfusion h
  rw [hc1] at h; dsimp only at h
  rcases hc2 : fileFormatFromU8 ffr with _ | ffrv
  · rw [hc2] at h; exact Option.noConfusion h
  rw [hc2] at h; dsimp only at h
  rcases hc3 : schemaFormatFromU32 schemafmtv with _ | sfv
  · rw [hc3] at h; exact Option.noConfusion h
  rw [hc3] at h; dsimp only at h
  rcases hc4 : textEncodingFromU32 textencv with _ | tev
  · rw [hc4] at h; exact Option.noConfusion h
  rw [hc4] at h; dsimp only at h
  injection h with h'
  injection h' with hH hR
  obtain ⟨hm1, hm2, _⟩ := readBytes_some h1
  obtain ⟨hv2, hr2, _⟩ := readU16_some h2
  obtain ⟨hv3, hr3, _⟩ := readU8_some h3
  obtain ⟨hv4, hr4, _⟩ := readU8_some h4
  obtain ⟨hv5, hr5, _⟩ := readU8_some h5
  obtain ⟨hv6, hr6, _⟩ := readU8_some h6
  obtain ⟨hv7, hr7, _⟩ := readU8_some h7
  obtain ⟨hv8, hr8, _⟩ := readU8_some h8
  obtain ⟨hv9, hr9, _⟩ := readU32_some h9
  obtain ⟨hv10, hr10, _⟩ := readU32_some h10
  obtain ⟨hv11, hr11, _⟩ := readU32_some h11
  obtain ⟨hv12, hr12, _⟩ := readU32_some h12
  obtain ⟨hv13, hr13, _⟩ := readU32_some h13
  obtain ⟨hv14, hr14, _⟩ := readU32_some h14
  obtain ⟨hv15, hr15, _⟩ := readU32_some h15
  obtain ⟨hv16, hr16, _⟩ := readU32_some h16
  obtain ⟨hv17, hr17, _⟩ := readU32_some h17
  obtain ⟨hv18, hr18, _⟩ := readU32_some h18
  obtain ⟨hv19, hr19, _⟩ := readU32_some h19
  obtain ⟨hv20, hr20, _⟩ := readU32_some h20
  obtain ⟨hv21, hr21, _⟩ := readBytes_some h21
  obtain ⟨hv22, hr22, _⟩ := readU32_some h22
  obtain ⟨hv23, hr23, hlen23⟩ := readU32_some h23
  have e1 : r1 = bs.drop 16 := hm2
  have e2 : r2 = bs.drop 18 := by rw [hr2, e1, List.drop_drop]
  have e3 : r3 = bs.drop 19 := by rw [hr3, e2, List.drop_drop]
  have e4 : r4 = bs.drop 20 := by rw [hr4, e3, List.drop_drop]
  have e5 : r5 = bs.drop 21 := by rw [hr5, e4, List.drop_drop]
  have e6 : r6 = bs.drop 22 := by rw [hr6, e5, List.drop_drop]
  have e7 : r7 = bs.drop 23 := by rw [hr7, e6, List.drop_drop]
  have e8 : r8 = bs.drop 24 := by rw [hr8, e7, List.drop_drop]
  have e9 : r9 = bs.drop 28 := by rw [hr9, e8, List.drop_drop]
  have e10 : r10 = bs.drop 32 := by rw [hr10, e9, List.drop_drop]
  have e11 : r11 = bs.drop 36 := by rw [hr11, e10, List.drop_drop]
  have e12 : r12 = bs.drop 40 := by rw [hr12, e11, List.drop_drop]
  have e13 : r13 = bs.drop 44 := by rw [hr13, e12, List.drop_drop]
  have e14 : r14 = bs.drop 48 := by rw [hr14, e13, List.drop_drop]
  have e15 : r15 = bs.drop 52 := by rw [hr15, e14, List.drop_drop]
  have e16 : r16 = bs.drop 56 := by rw [hr16, e15, List.drop_drop]
  have e17 : r17 = bs.drop 60 := by rw [hr17, e16, List.drop_drop]
  have e18 : r18 = bs.drop 64 := by rw [hr18, e17, List.drop_drop]
  have e19 : r19 = bs.drop 68 := by rw [hr19, e18, List.drop_drop]
  have e20 : r20 = bs.drop 72 := by rw [hr20, e19, List.drop_drop]
  have e21 : r21 = bs.drop 92 := by rw [hr21, e20, List.drop_drop]
  have e22 : r22 = bs.drop 96 := by rw [hr22, e21, List.drop_drop]
  have e23 : r23 = bs.drop 100 := by rw [hr23, e22, List.drop_drop]
  refine ⟨?_, ?_, ?_, ?_, ?_, ?_, ?_, ?_, ?_, ?_, ?_⟩
  · rw [e22, List.length_drop] at hlen23; omega
  · rw [← hR, e23]
  · rw [← hm1]; exact assertCond_some hA1
  · rw [← hH]
    show decodePageSize page_size_raw = decodePageSize (u16At bs 16)
    rw [hv2, e1]
    rfl
  · show beNat ((bs.drop 21).take 1) = 64
    rw [← e5, ← hv6]; exact assertCond_some hA2
  · show beNat ((bs.drop 22).take 1) = 32
    rw [← e6, ← hv7]; exact assertCond_some hA3
  · show beNat ((bs.drop 23).take 1) = 32
    rw [← e7, ← hv8]; exact assertCond_some hA4
  · show beNat ((bs.drop 18).take 1) = 1 ∨ beNat ((bs.drop 18).take 1) = 2
    rw [← e2, ← hv3]; exact fileFormatFromU8_some hc1
  · show beNat ((bs.drop 19).take 1) = 1 ∨ beNat ((bs.drop 19).take 1) = 2
    rw [← e3, ← hv4]; exact fileFormatFromU8_some hc2
  · show 1 ≤ beNat ((bs.drop 44).take 4) ∧ beNat ((bs.drop 44).take 4) ≤ 4
    rw [← e13, ← hv14]; exact schemaFormatFromU32_some hc3
  · show 1 ≤ beNat ((bs.drop 56).take 4) ∧ beNat ((bs.drop 56).take 4) ≤ 3
    rw [← e16, ← hv17]; exact textEncodingFromU32_some hc4

/-- Slicing a file made of fixed-size pages at offset `(p - 1) * ps`
recovers page `p`: the correctness of the offset arithmetic used by
`load_table_at_page`. -/
lemma flatten_chunk_slice :
    ∀ (chunks : List (List Nat)) (ps p : Nat),
      (∀ c ∈ chunks, c.length = ps) → 1 ≤ p → p ≤ chunks.length →
      (chunks.flatten.drop (loadTableOffset p ps)).take ps = chunks.getD (p - 1) [] := by
  intro chunks
  induction chunks with
  | nil => intro ps p _ h1 h2; simp at h2; omega
  | cons c cs ih =>
    intro ps p hall h1 h2
    have hc : c.length = ps := hall c (by simp)
    rcases Nat.lt_or_ge p 2 with hp | hp
    · have hp1 : p = 1 := by omega
      subst hp1
      unfold loadTableOffset
      simp only [Nat.sub_self, Nat.zero_mul, List.drop_zero, List.flatten_cons,
        List.getD_cons_zero]
      rw [← hc, List.take_left]
    · have hsplit : loadTableOffset p ps = c.length + loadTableOffset (p - 1) ps := by
        unfold loadTableOffset
        rw [hc]
        have hkey : p - 1 = (p - 2) + 1 := by omega
        rw [hkey]
        have hkey2 : (p - 2) + 1 - 1 = p - 2 := by omega
        rw [hkey2, Nat.add_mul, Nat.one_mul, Nat.add_comm]
      rw [List.flatten_cons, hsplit, List.drop_append]
      have hgd : p - 1 = (p - 2) + 1 := by omega
      rw [hgd, List.getD_cons_succ]
      have := ih ps (p - 1) (fun x hx => hall x (by simp [hx])) (by omega)
        (by rw [List.length_cons] at h2; omega)
      rw [show p - 1 - 1 = p - 2 from by omega] at this
      exact this

/-- A string-scan that never meets its closing quote fails
(`scanStringChars` over a list without `q` is `none`). -/
lemma scanStringChars_none {q : Char} :
    ∀ {l : List Char}, (∀ c ∈ l, c ≠ q) → scanStringChars q l = none := by
  intro l
  induction l with
  | nil => intro _; rfl
  | cons c rest ih =>
    intro hall
    unfold scanStringChars
    rw [if_neg (hall c (by simp))]
    rw [ih (fun x hx => hall x (by simp [hx]))]

/-! ### A valid 100-byte header used by the witnesses -/

/-- A well-formed 100-byte header whose two-byte value at offset 16 is
`[16, 0]`, i.e. page size 4096. -/
def headerBytes4096 : List Nat :=
  sqliteMagicBytes ++ [16, 0] ++ [1, 1] ++ [0] ++ [64, 32, 32] ++
    List.replicate 20 0 ++ [0, 0, 0, 1] ++ List.replicate 8 0 ++
    [0, 0, 0, 1] ++ List.replicate 40 0

/-- The header `DbHeader::parse` produces from `headerBytes4096`. -/
def hdr4096 : DbHeader :=
  ⟨4096, FileFormat.Legacy, FileFormat.Legacy, 0, 64, 32, 32, 0, 0, 0, 0, 0,
    SchemaFormat.One, 0, 0, TextEncoding.Utf8, 0, false, 0, 0, 0⟩

/-- The same header bytes with `[0, 1]` at offset 16: the page-size-65536
encoding. -/
def headerBytes65536 : List Nat :=
  sqliteMagicBytes ++ [0, 1] ++ [1, 1] ++ [0] ++ [64, 32, 32] ++
    List.replicate 20 0 ++ [0, 0, 0, 1] ++ List.replicate 8 0 ++
    [0, 0, 0, 1] ++ List.replicate 40 0

/-- The header `DbHeader::parse` produces from `headerBytes65536`. -/
def hdr65536 : DbHeader :=
  ⟨65536, FileFormat.Legacy, FileFormat.Legacy, 0, 64, 32, 32, 0, 0, 0, 0, 0,
    SchemaFormat.One, 0, 0, TextEncoding.Utf8, 0, false, 0, 0, 0⟩

lemma dbHeaderParse_headerBytes65536 :
    dbHeaderParse headerBytes65536 = some (hdr65536, []) := by decide

/-! ### The claims -/

/-- **C1** — *refuted by the code (code bug)*.  The claim says a full table
scan of a table whose root is an interior page recurses into every cell's
left child and, after the last cell, into the rightmost child, so that
every leaf record is yielded.  In `recurse_page_for_rows` the
`InteriorTable` arm has no rightmost-child descent: on the concrete
two-level table of `dbEx` (root `pageRootT`, cells over left children
pages 3 and 4, rightmost child page 5) the scan yields only the cells'
left-child records and never visits page 5, whose record `recRowid60`
is silently dropped.
Moreover the planner's `LoadTable` step does not recurse at all: for the
same table it produces the root page's interior records as the row set. -/
theorem c1_scan_misses_rightmost_child :
    recursePageForRows dbEx 8 pageRootT 1 none none =
      some ([DbRecord.TableLeafRecord recRowid20,
        DbRecord.TableLeafRecord recRowid40], none) ∧
    pageRootT.header.rightmost_pointer = some 5 ∧
    loadTableAtPage dbEx 5 = some pageLeaf5 ∧
    pageLeaf5.records = [DbRecord.TableLeafRecord recRowid60] ∧
    (getTable dbEx "t").bind (fun t => (loadTable dbEx t).map DbPage.records) =
      some [DbRecord.InteriorTableRecord ⟨3, 20⟩,
        DbRecord.InteriorTableRecord ⟨4, 40⟩] := by
  refine ⟨by decide, by decide, by decide, by decide, by decide⟩

/-- **C2** — *refuted by the code (code bug)*.  On `dbEx` an index on
`(t, C)` exists, yet the index path and the scan-plus-filter path
disagree: `fetch_rows_from_index` finds row id 40 in the index but the
row-id-directed descent dives into the *first* cell's left child
(because `40 >= first_record.key` sends it there) and returns without
visiting the subtree that holds row 40, so it yields no rows, while the
full scan followed by the equality filter returns row 40.
(The shipped `QueryStep::Filter` never invokes the index path at all —
`filterRows` does not even take the database as an argument.) -/
theorem c2_index_path_disagrees_with_scan_filter :
    getIndexForColumnAndTable dbEx "t" "C" = some idxEntry ∧
    fetchRowsFromIndex dbEx 10 idxEntry (Value.Text "A") = some [] ∧
    (getTableRows dbEx 10 tblEntry none).bind (filterRows 0 (Value.Text "A")) =
      some [recRowid40] := by
  refine ⟨by decide, by decide, by decide⟩

/-- **C3** — *refuted by the code (code bug)*.  The claim says decoding the
SQLite varint encoding of any `v < 2^56` returns `(v, length)`.  The
decoder shifts the accumulator by a shift that *accumulates* across
iterations (`shift += 7` combined with `n <<= shift`), so every varint of
three or more bytes is misdecoded: the encoding of 16384 is
`[0x81, 0x80, 0x00]`, which the decoder reads back as 2097152. -/
theorem c3_varint_roundtrip_fails_at_16384 :
    (16384 : Nat) < 2 ^ 56 ∧
    encodeVarint 16384 = [129, 128, 0] ∧
    readVarint [129, 128, 0] = some (2097152, 3, []) ∧
    (2097152 : Nat) ≠ 16384 := by
  refine ⟨by decide, by decide, by decide, by decide⟩

/-- **C4 counterexample**.  The claim says the WHERE equality comparison
compares raw byte representations, so that `Int(0x41)` equals
`Text("A")`.  In the code the comparison is the *derived* `PartialEq` of
`Value` (structural), under which the two are unequal and the filter
drops the row; and even the `as_bytes` representations differ
(`[0,..,0,0x41]` versus `[0x41]`), so the byte comparison would not
conflate them either. -/
theorem c4_cross_type_equality_counterexample :
    valueEqRust (Value.Int 65) (Value.Text "A") = false ∧
    filterRows 0 (Value.Text "A")
      [{ header := { row_id := 1 }, values := [Value.Int 65] }] = some [] ∧
    valueBytes (Value.Int 65) ≠ valueBytes (Value.Text "A") := by
  refine ⟨by decide, by decide, by decide⟩

/-- **C4 (amended)**.  The executor's WHERE equality (`QueryStep::Filter`)
uses the derived structural equality of `Value`: operands of different
variants never compare equal — in particular a stored `Int` never matches
a query `Text` literal and the filter removes such rows.  (Raw-byte
comparison via `as_bytes` appears only in the interior-index *ordering*
test.) -/
theorem c4_filter_equality_is_structural (n : Int) (s : String)
    (b : List Nat) (rid : Nat) :
    valueEqRust (Value.Int n) (Value.Text s) = false ∧
    valueEqRust (Value.Text s) (Value.Int n) = false ∧
    valueEqRust (Value.Int n) (Value.Blob b) = false ∧
    valueEqRust (Value.Text s) (Value.Blob b) = false ∧
    valueEqRust (Value.Int n) Value.Null = false ∧
    valueEqRust (Value.Text s) Value.Null = false ∧
    valueEqRust (Value.Blob b) Value.Null = false ∧
    valueEqRust (Value.Text s) (Value.Text s) = true ∧
    filterRows 0 (Value.Text s)
      [{ header := { row_id := rid }, values := [Value.Int n] }] = some [] := by
  refine ⟨rfl, rfl, rfl, rfl, rfl, rfl, rfl, by simp [valueEqRust], ?_⟩
  unfold filterRows
  simp [valueEqRust]
  rfl

/-- **C5** — *refuted by the code (code bug)*.  The claim (and the SQLite
format) says serial-type code 7 decodes to an 8-byte IEEE float, a
`Real(f64)` value.  The source's `Value` enum has no float variant at
all, and `DataType::parse` decodes code 7 as
`Value::Int(read_u64() as i64)` — the raw bit pattern as an integer: the
bytes of `1.0` decode to `Int 4607182418800017408` and the bytes of
`-1.0` to a negative integer equal to the sign-flipped bit pattern. -/
theorem c5_float_serial_decoded_as_int_bits :
    dataTypeFromCode 7 = some DataType.Float ∧
    DataType.parse DataType.Float [0x3F, 0xF0, 0, 0, 0, 0, 0, 0] =
      some (Value.Int 4607182418800017408, []) ∧
    DataType.parse DataType.Float [0xBF, 0xF0, 0, 0, 0, 0, 0, 0] =
      some (Value.Int (-4616189618054758400), []) := by
  refine ⟨by decide, by decide, by decide⟩

/-- **C6** — *refuted by the code (code bug)*.  The claim says serial
types 3 (24-bit) and 5 (48-bit) sign-extend, so an all-ones body decodes
to `Int(-1)`.  The source zero-pads (`[0, b0, b1, b2]` into an `i32`,
`[0, 0, b0..b5]` into an `i64`), so those bodies decode to the *positive*
values `16777215` and `281474976710655`. -/
theorem c6_int24_int48_zero_extended :
    dataTypeFromCode 3 = some DataType.Int24 ∧
    dataTypeFromCode 5 = some DataType.Int48 ∧
    DataType.parse DataType.Int24 [0xFF, 0xFF, 0xFF] =
      some (Value.Int 16777215, []) ∧
    (0 : Int) < 16777215 ∧
    DataType.parse DataType.Int48 [0xFF, 0xFF, 0xFF, 0xFF, 0xFF, 0xFF] =
      some (Value.Int 281474976710655, []) ∧
    (0 : Int) < 281474976710655 := by
  refine ⟨by decide, by decide, by decide, by decide, by decide, by decide⟩

/-- **C7** — *confirmed*.  A successful header parse decodes the two-byte
big-endian value at offset 16 through `decodePageSize`; the stored value 1
decodes to 65536 and every other value to itself; and the page offset
`(page - 1) * page_size` computed by `load_table_at_page` addresses
exactly page `page` of a file of fixed-size pages. -/
theorem c7_page_size_decode_and_offsets :
    (∀ (bs : List Nat) (hdr : DbHeader) (rest : List Nat),
      dbHeaderParse bs = some (hdr, rest) →
      hdr.page_size = decodePageSize (u16At bs 16)) ∧
    decodePageSize 1 = 65536 ∧
    (∀ v, v ≠ 1 → decodePageSize v = v) ∧
    (∀ (chunks : List (List Nat)) (ps p : Nat),
      (∀ c ∈ chunks, c.length = ps) → 1 ≤ p → p ≤ chunks.length →
      (chunks.flatten.drop (loadTableOffset p ps)).take ps =
        chunks.getD (p - 1) []) := by
  refine ⟨?_, rfl, ?_, flatten_chunk_slice⟩
  · intro bs hdr rest h
    exact (dbHeaderParse_some_spec h).2.2.2.1
  · intro v hv
    unfold decodePageSize
    rw [if_neg hv]

/-- Witness for C7 at concrete inputs: the 65536 encoding parses to page
size 65536, a non-1 raw value decodes to itself, and the offset of page 2
in a 2-byte-page file selects the second page. -/
theorem c7_page_size_decode_and_offsets_witness :
    hdr65536.page_size = decodePageSize (u16At headerBytes65536 16) ∧
    decodePageSize 4096 = 4096 ∧
    ((([[1, 2], [3, 4]] : List (List Nat)).flatten.drop
      (loadTableOffset 2 2)).take 2) = [[1, 2], [3, 4]].getD (2 - 1) [] := by
  refine ⟨?_, ?_, ?_⟩
  · exact c7_page_size_decode_and_offsets.1 headerBytes65536 hdr65536 []
      dbHeaderParse_headerBytes65536
  · exact c7_page_size_decode_and_offsets.2.2.1 4096 (by decide)
  · exact c7_page_size_decode_and_offsets.2.2.2 [[1, 2], [3, 4]] 2 2
      (by decide) (by decide) (by decide)

/-- **C8** — *confirmed*.  A successful header parse consumes exactly the
first 100 bytes (the remainder is `drop 100` and the input has at least
100 bytes), and it requires the magic prefix, the 64/32/32 payload
fractions, file-format bytes in `{1, 2}`, a schema-format word in `1..4`
and a text-encoding word in `1..3`; contrapositively, an input violating
any of these yields `none` (the model of the fatal panic). -/
theorem c8_header_parse_reads_100_and_validates
    (bs : List Nat) (hdr : DbHeader) (rest : List Nat)
    (h : dbHeaderParse bs = some (hdr, rest)) :
    100 ≤ bs.length ∧ rest = bs.drop 100 ∧
    bs.take 16 = sqliteMagicBytes ∧
    u8At bs 21 = 64 ∧ u8At bs 22 = 32 ∧ u8At bs 23 = 32 ∧
    (u8At bs 18 = 1 ∨ u8At bs 18 = 2) ∧ (u8At bs 19 = 1 ∨ u8At bs 19 = 2) ∧
    (1 ≤ u32At bs 44 ∧ u32At bs 44 ≤ 4) ∧
    (1 ≤ u32At bs 56 ∧ u32At bs 56 ≤ 3) := by
  have hs := dbHeaderParse_some_spec h
  exact ⟨hs.1, hs.2.1, hs.2.2.1, hs.2.2.2.2.1, hs.2.2.2.2.2.1,
    hs.2.2.2.2.2.2.1, hs.2.2.2.2.2.2.2.1, hs.2.2.2.2.2.2.2.2.1,
    hs.2.2.2.2.2.2.2.2.2.1, hs.2.2.2.2.2.2.2.2.2.2⟩

/-- Witness for C8: the concrete valid header bytes parse successfully and
the theorem's conclusions hold of them. -/
theorem c8_header_parse_reads_100_and_validates_witness :
    100 ≤ headerBytes65536.length ∧
    ([] : List Nat) = headerBytes65536.drop 100 ∧
    headerBytes65536.take 16 = sqliteMagicBytes ∧
    u8At headerBytes65536 21 = 64 ∧ u8At headerBytes65536 22 = 32 ∧
    u8At headerBytes65536 23 = 32 ∧
    (u8At headerBytes65536 18 = 1 ∨ u8At headerBytes65536 18 = 2) ∧
    (u8At headerBytes65536 19 = 1 ∨ u8At headerBytes65536 19 = 2) ∧
    (1 ≤ u32At headerBytes65536 44 ∧ u32At headerBytes65536 44 ≤ 4) ∧
    (1 ≤ u32At headerBytes65536 56 ∧ u32At headerBytes65536 56 ≤ 3) :=
  c8_header_parse_reads_100_and_validates headerBytes65536 hdr65536 []
    dbHeaderParse_headerBytes65536

/-- **C9 counterexample**.  The claim says `.tables` prints exactly one
line.  On a concrete master page with two entries the `"tables"` arm
prints *two* lines: a `number of tables:` line (the source's lines
341-346) followed by the space-joined names. -/
theorem c9_tables_prints_two_lines :
    tablesOutput pageMaster = some ["number of tables: 2", "t i"] ∧
    (tablesOutput pageMaster).map List.length = some 2 ∧
    (2 : Nat) ≠ 1 := by
  refine ⟨by decide, by decide, by decide⟩

/-- **C9 (amended)**.  For every master page all of whose records parse,
the `.tables` dot-command prints exactly two lines: first
`number of tables: <cell_count>`, then the `name` fields of *all*
master-page entries (tables and indexes alike), joined by single spaces,
in storage order. -/
theorem c9_tables_output_two_lines (mp : DbPage) (names : List String)
    (h : mp.records.mapM
      (fun record => (masterPageRecordParse record).map (fun m => m.name)) =
        some names) :
    tablesOutput mp =
      some ["number of tables: " ++ toString mp.header.cell_count,
        String.intercalate " " names] := by
  unfold tablesOutput
  rw [h]

/-- Witness for the amended C9 at the concrete master page. -/
theorem c9_tables_output_two_lines_witness :
    tablesOutput pageMaster =
      some ["number of tables: " ++ toString pageMaster.header.cell_count,
        String.intercalate " " ["t", "i"]] :=
  c9_tables_output_two_lines pageMaster ["t", "i"] (by decide)

/-- **C10** — *confirmed*.  `next_token` is not total: invoked at an
opening quote with no matching close quote anywhere after it, or at a
`'-'` that is the last character of the input, it indexes one position
past the end of the input (`chars().nth(..).unwrap()`), modelled as
`none`, instead of producing a token or a reported error. -/
theorem c10_next_token_partiality (cs : List Char) (i fuel : Nat) :
    (cs.get? i = some '\'' →
      (∀ j, i < j → cs.get? j ≠ some '\'') →
      nextToken cs i (fuel + 1) = none) ∧
    (cs.get? i = some '"' →
      (∀ j, i < j → cs.get? j ≠ some '"') →
      nextToken cs i (fuel + 1) = none) ∧
    (cs.get? i = some '-' → cs.length = i + 1 →
      nextToken cs i (fuel + 1) = none) := by
  refine ⟨?_, ?_, ?_⟩
  · intro h hno
    have hi : i < cs.length := by
      by_contra hle
      rw [List.get?_eq_none.mpr (by omega)] at h
      exact Option.noConfusion h
    have hscan : scanStringChars '\'' (cs.drop (i + 1)) = none := by
      apply scanStringChars_none
      intro c hc hcq
      obtain ⟨m, hm⟩ := List.mem_iff_get?.mp hc
      rw [List.get?_drop] at hm
      exact hno (i + 1 + m) (by omega) (by rw [hm, hcq])
    unfold nextToken
    rw [if_neg (by omega), h]
    dsimp only
    rw [if_neg (by decide), if_neg (by decide), if_neg (by decide),
      if_neg (by decide), if_neg (by decide), if_neg (by decide),
      if_neg (by decide), if_neg (by decide), if_pos rfl, hscan]
  · intro h hno
    have hi : i < cs.length := by
      by_contra hle
      rw [List.get?_eq_none.mpr (by omega)] at h
      exact Option.noConfusion h
    have hscan : scanStringChars '"' (cs.drop (i + 1)) = none := by
      apply scanStringChars_none
      intro c hc hcq
      obtain ⟨m, hm⟩ := List.mem_iff_get?.mp hc
      rw [List.get?_drop] at hm
      exact hno (i + 1 + m) (by omega) (by rw [hm, hcq])
    unfold nextToken
    rw [if_neg (by omega), h]
    dsimp only
    rw [if_neg (by decide), if_neg (by decide), if_neg (by decide),
      if_neg (by decide), if_neg (by decide), if_neg (by decide),
      if_neg (by decide), if_neg (by decide), if_neg (by decide),
      if_pos rfl, hscan]
  · intro h hlen
    have hi : i < cs.length := by omega
    have hnone : cs.get? (i + 1) = none := List.get?_eq_none.mpr (by omega)
    unfold nextToken
    rw [if_neg (by omega), h]
    dsimp only
    rw [if_neg (by decide), if_neg (by decide), if_neg (by decide),
      if_neg (by decide), if_neg (by decide), if_neg (by decide),
      if_pos rfl, hnone]

/-- Witness for C10: a concrete unterminated single-quoted literal, a
concrete unterminated double-quoted literal, and a concrete input ending
in `-`, each making `next_token` fail. -/
theorem c10_next_token_partiality_witness :
    nextToken ['\'', 'a', 'b'] 0 3 = none ∧
    nextToken ['x', '"'] 1 3 = none ∧
    nextToken ['-'] 0 3 = none := by
  refine ⟨?_, ?_, ?_⟩
  · refine (c10_next_token_partiality ['\'', 'a', 'b'] 0 2).1 (by decide) ?_
    intro j hj
    match j, hj with
    | 1, _ => decide
    | 2, _ => decide
    | (m + 3), _ => simp [List.get?]
  · refine (c10_next_token_partiality ['x', '"'] 1 2).2.1 (by decide) ?_
    intro j hj
    match j, hj with
    | (m + 2), _ => simp [List.get?]
  · exact (c10_next_token_partiality ['-'] 0 2).2.2 (by decide) (by decide)

end SqliteClone
